import Mathlib

/-!
Verification of the content-collection query pipeline of the `gabrielmeloc22/blog`
static site. The pipeline under study is the homepage listing computation in
`src/pages/index.astro`:

  const blog = (await getCollection("blog"))
    .filter((post) => !post.data.draft)
    .sort((a, b) => b.data.date.valueOf() - a.data.date.valueOf())
    .slice(0, SITE.NUM_POSTS_ON_HOMEPAGE);

together with the constants of `src/consts.ts` and `astro.config.mjs`.
Dates are embedded as integers (milliseconds since the epoch, the value of
`Date.prototype.valueOf`). The optional `draft` frontmatter field is an
`Option Bool`; JavaScript `!post.data.draft` treats a missing field
(`undefined`) like `false`. `Array.prototype.sort` is stable per ECMAScript
2019, and the comparator `b.date - a.date` orders by date descending, so the
sort step is embedded as a stable insertion sort by descending date.
-/

namespace Blog

/-- Frontmatter metadata of a blog entry (`title`, `description`, `date`,
optional `draft`, optional explicit `slug`), as in the content schema. -/
structure EntryData where
  title : String
  description : String
  date : Int
  draft : Option Bool
  slug : Option String
deriving DecidableEq

/-- A loaded content entry: filesystem-derived identifier plus frontmatter. -/
structure Entry where
  id : String
  data : EntryData
deriving DecidableEq

/-- `SITE.NUM_POSTS_ON_HOMEPAGE` from `src/consts.ts`. -/
def NUM_POSTS_ON_HOMEPAGE : Nat := 3

/-- The draft filter of `index.astro`: `(post) => !post.data.draft`.
A missing `draft` field is `undefined`, and `!undefined` is `true`. -/
def notDraft (post : Entry) : Bool := !(post.data.draft.getD false)

/-- Insertion step of the stable descending-by-date sort: the inserted
element goes before the first element whose date is not greater, matching
the comparator `(a, b) => b.data.date.valueOf() - a.data.date.valueOf()`. -/
def dateDescInsert (a : Entry) : List Entry → List Entry
  | [] => [a]
  | b :: rest =>
      if b.data.date ≤ a.data.date then a :: b :: rest
      else b :: dateDescInsert a rest

/-- Stable sort by descending date, the embedding of the `.sort` step
(ECMAScript `Array.prototype.sort` is stable). -/
def sortByDateDesc : List Entry → List Entry
  | [] => []
  | a :: rest => dateDescInsert a (sortByDateDesc rest)

/-- `view.slice(0, n)` for `n ≥ 0`: the first `n` entries, the whole view
when `n` exceeds its length. -/
def sliceWindow (view : List Entry) (n : Nat) : List Entry := view.take n

/-- The homepage pipeline of `src/pages/index.astro`:
filter out drafts, sort by date descending, take the first
`NUM_POSTS_ON_HOMEPAGE` entries. -/
def homepage (coll : List Entry) : List Entry :=
  sliceWindow (sortByDateDesc (coll.filter notDraft)) NUM_POSTS_ON_HOMEPAGE

/-- Milliseconds since the epoch of January `d` 2024 (UTC). -/
def jan2024 (d : Nat) : Int := 1704067200000 + (d - 1) * 86400000

/-- A heap of JavaScript arrays indexed by allocation order. It makes
object identity explicit, so the in-place mutation of
`Array.prototype.sort` is distinguishable from the fresh allocations of
`filter` and `slice`. -/
abbrev Store := List (List Entry)

/-- Allocate a fresh array holding `l`; returns the heap and the new index. -/
def alloc (st : Store) (l : List Entry) : Store × Nat := (st ++ [l], st.length)

/-- The contents of the array at index `i`. -/
def readArr (st : Store) (i : Nat) : List Entry := st[i]?.getD []

/-- Overwrite the array at index `i` in place. -/
def writeArr (st : Store) (i : Nat) (l : List Entry) : Store := st.set i l

/-- `Array.prototype.filter` with the draft predicate: reads its receiver
and allocates a fresh array for the result. -/
def jsFilter (st : Store) (i : Nat) : Store × Nat :=
  alloc st ((readArr st i).filter notDraft)

/-- `Array.prototype.sort` with the date comparator: sorts its receiver in
place and returns the same array index. -/
def jsSortInPlace (st : Store) (i : Nat) : Store × Nat :=
  (writeArr st i (sortByDateDesc (readArr st i)), i)

/-- `Array.prototype.slice(0, n)`: reads its receiver and allocates a fresh
array for the result. -/
def jsSlice (st : Store) (i n : Nat) : Store × Nat :=
  alloc st ((readArr st i).take n)

/-- The homepage pipeline of `index.astro` run over the array heap: the
collection returned by `getCollection` is the array at index 0, and each
method is applied to the previous step's result. -/
def homepagePipeline (coll : List Entry) : Store × Nat :=
  let s0 := alloc [] coll
  let s1 := jsFilter s0.1 s0.2
  let s2 := jsSortInPlace s1.1 s1.2
  jsSlice s2.1 s2.2 NUM_POSTS_ON_HOMEPAGE

/-- The one blog entry of the repository,
`src/content/blog/react-jsx-common-pitfall/index.md`: no `draft` field, an
explicit `slug` field, dated March 22 2024. -/
def jsxPitfallEntry : Entry :=
  ⟨"react-jsx-common-pitfall",
   ⟨"JSX in React and a common pitfall",
    "A practical example of how abstractions can be problematic for beginners",
    1711065600000, none, some "jsx-in-react-and-a-common-pitfall"⟩⟩

/-- Modelled from the spec: slug resolution is performed by the
`astro:content` loader, which is not part of `src/`; per the spec, the
explicit `slug` field in the metadata takes precedence over the
filesystem-derived identifier, if both are present. -/
def resolveSlug (identifier : String) (explicitSlug : Option String) : String :=
  explicitSlug.getD identifier

/-- `site` from `astro.config.mjs`. -/
def siteOrigin : String := "https://gabrielmeloc22.github.io"

/-- `base` from `astro.config.mjs`. -/
def basePath : String := "blog"

/-- A generated route: output path plus optional last-modified time. -/
structure Route where
  path : String
  lastModified : Option Int
deriving DecidableEq

/-- Modelled from the spec: the page generator emits one detail route per
non-excluded entry (drafts excluded from the public route set), with the
path derived from the entry's slug; this generation is performed by the
Astro framework, not by code under `src/`. -/
def publicRoutes (coll : List Entry) : List Route :=
  (coll.filter notDraft).map
    (fun e => ⟨"/" ++ resolveSlug e.id e.data.slug, some e.data.date⟩)

/-- Modelled from the spec: the sitemap emitter is the `@astrojs/sitemap`
integration, not code under `src/`; per the spec it lists one absolute URL
per route, formed as `siteOrigin + basePath + route.path`. -/
def emitSitemap (routes : List Route) : List String :=
  routes.map (fun r => siteOrigin ++ basePath ++ r.path)

end Blog

namespace Blog

/-- Inserting an element and then filtering by a fixed date keeps the
inserted element in front of the equally-dated ones: every element the
insertion skips has a strictly greater date. -/
theorem filter_date_dateDescInsert (a : Entry) (m : List Entry) (d : Int) :
    (dateDescInsert a m).filter (fun e => e.data.date == d) =
      if a.data.date = d then
        a :: m.filter (fun e => e.data.date == d)
      else m.filter (fun e => e.data.date == d) := by
  induction m with
  | nil =>
      by_cases had : a.data.date = d <;>
        simp [dateDescInsert, List.filter_cons, had]
  | cons b rest ih =>
      by_cases hba : b.data.date ≤ a.data.date
      · rw [dateDescInsert, if_pos hba]
        by_cases had : a.data.date = d <;> simp [List.filter_cons, had]
      · rw [dateDescInsert, if_neg hba]
        have hab : a.data.date < b.data.date := lt_of_not_ge hba
        by_cases had : a.data.date = d
        · have hbd : b.data.date ≠ d := by omega
          simp [List.filter_cons, ih, had, hbd]
        · by_cases hbd : b.data.date = d <;>
            simp [List.filter_cons, ih, had, hbd]

/-- `dateDescInsert` only moves the inserted element: it permutes cons. -/
theorem perm_dateDescInsert (a : Entry) (m : List Entry) :
    List.Perm (dateDescInsert a m) (a :: m) := by
  induction m with
  | nil => exact List.Perm.refl _
  | cons b rest ih =>
      by_cases hba : b.data.date ≤ a.data.date
      · simp [dateDescInsert, hba]
      · simp only [dateDescInsert, hba, if_neg (by exact hba)]
        exact (ih.cons b).trans (List.Perm.swap a b rest)

/-- The sort step is a permutation of its input. -/
theorem perm_sortByDateDesc (l : List Entry) :
    List.Perm (sortByDateDesc l) l := by
  induction l with
  | nil => exact List.Perm.refl _
  | cons a rest ih =>
      exact (perm_dateDescInsert a (sortByDateDesc rest)).trans (ih.cons a)

/-- C1: for a blog collection of exactly 5 non-draft entries dated
January 1 through January 5, with `NUM_POSTS_ON_HOMEPAGE = 3`, the homepage
listing is exactly the January 5, January 4, January 3 entries, in order. -/
theorem homepage_five_entries (e1 e2 e3 e4 e5 : Entry)
    (hd1 : e1.data.date = jan2024 1) (hd2 : e2.data.date = jan2024 2)
    (hd3 : e3.data.date = jan2024 3) (hd4 : e4.data.date = jan2024 4)
    (hd5 : e5.data.date = jan2024 5)
    (hn1 : notDraft e1 = true) (hn2 : notDraft e2 = true)
    (hn3 : notDraft e3 = true) (hn4 : notDraft e4 = true)
    (hn5 : notDraft e5 = true) :
    homepage [e1, e2, e3, e4, e5] = [e5, e4, e3] := by
  simp [homepage, sortByDateDesc, dateDescInsert, sliceWindow,
    NUM_POSTS_ON_HOMEPAGE, List.filter, hn1, hn2, hn3, hn4, hn5,
    hd1, hd2, hd3, hd4, hd5, jan2024]

/-- Concrete instance of `homepage_five_entries`, with five explicit
entries dated January 1–5, 2024. -/
theorem homepage_five_entries_witness :
    homepage
      [⟨"p1", ⟨"t1", "d1", jan2024 1, none, none⟩⟩,
       ⟨"p2", ⟨"t2", "d2", jan2024 2, none, none⟩⟩,
       ⟨"p3", ⟨"t3", "d3", jan2024 3, none, none⟩⟩,
       ⟨"p4", ⟨"t4", "d4", jan2024 4, none, none⟩⟩,
       ⟨"p5", ⟨"t5", "d5", jan2024 5, none, none⟩⟩] =
      [⟨"p5", ⟨"t5", "d5", jan2024 5, none, none⟩⟩,
       ⟨"p4", ⟨"t4", "d4", jan2024 4, none, none⟩⟩,
       ⟨"p3", ⟨"t3", "d3", jan2024 3, none, none⟩⟩] :=
  homepage_five_entries _ _ _ _ _ rfl rfl rfl rfl rfl rfl rfl rfl rfl rfl

/-- C2: the sort used for time-ordered listings is stable: for every
collection and every date value, the entries carrying that date appear in
the sorted view exactly in their original load order (the sorted view is a
pure function of the input, so this order is the same on every run). -/
theorem sortByDateDesc_stable (l : List Entry) (d : Int) :
    (sortByDateDesc l).filter (fun e => e.data.date == d) =
      l.filter (fun e => e.data.date == d) := by
  induction l with
  | nil => rfl
  | cons a rest ih =>
      rw [sortByDateDesc, filter_date_dateDescInsert]
      by_cases had : a.data.date = d <;> simp [List.filter_cons, had, ih]

/-- C3: an entry whose metadata has `draft: true` never appears in the
homepage listing view produced with the default filter. -/
theorem draft_not_on_homepage (coll : List Entry) (e : Entry)
    (h : e ∈ homepage coll) : e.data.draft ≠ some true := by
  simp only [homepage, sliceWindow] at h
  have h1 : e ∈ sortByDateDesc (coll.filter notDraft) := List.mem_of_mem_take h
  have h2 : e ∈ coll.filter notDraft :=
    (perm_sortByDateDesc (coll.filter notDraft)).mem_iff.mp h1
  have h3 : notDraft e = true := (List.mem_filter.mp h2).2
  intro hcontra
  rw [notDraft, hcontra] at h3
  simp at h3

/-- Instance of `draft_not_on_homepage` at a concrete one-entry collection. -/
theorem draft_not_on_homepage_witness :
    (⟨"p", ⟨"t", "d", 0, none, none⟩⟩ : Entry).data.draft ≠ some true :=
  draft_not_on_homepage [⟨"p", ⟨"t", "d", 0, none, none⟩⟩]
    ⟨"p", ⟨"t", "d", 0, none, none⟩⟩ (by decide)

/-- C4: the `slice(0, n)` window step: when `n` exceeds the view length it
returns the whole view unchanged rather than failing, its length is
`min n length`, and for indices below `n` it returns exactly the
corresponding entries of the view. -/
theorem sliceWindow_spec (view : List Entry) (n : Nat) :
    (view.length < n → sliceWindow view n = view) ∧
      (sliceWindow view n).length = min n view.length ∧
      ∀ i : Nat, i < n → (sliceWindow view n)[i]? = view[i]? := by
  refine ⟨fun h => List.take_of_length_le (le_of_lt h), ?_, ?_⟩
  · exact List.length_take n view
  · intro i hi
    simp [sliceWindow, List.getElem?_take, hi]

/-- Instance of `sliceWindow_spec` at concrete views and window sizes. -/
theorem sliceWindow_spec_witness :
    (sliceWindow [⟨"p", ⟨"t", "d", 0, none, none⟩⟩] 9 =
        [⟨"p", ⟨"t", "d", 0, none, none⟩⟩] ∧
      (sliceWindow [⟨"p", ⟨"t", "d", 0, none, none⟩⟩] 9).length = min 9 1) ∧
      (sliceWindow [⟨"p", ⟨"t", "d", 0, none, none⟩⟩] 1)[0]? =
        [(⟨"p", ⟨"t", "d", 0, none, none⟩⟩ : Entry)][0]? :=
  ⟨⟨(sliceWindow_spec [⟨"p", ⟨"t", "d", 0, none, none⟩⟩] 9).1 (by decide),
    (sliceWindow_spec [⟨"p", ⟨"t", "d", 0, none, none⟩⟩] 9).2.1⟩,
    (sliceWindow_spec [⟨"p", ⟨"t", "d", 0, none, none⟩⟩] 1).2.2 0 (by decide)⟩

/-- C5: no query operation mutates the underlying loaded collection: after
the pipeline runs over the array heap, the array `getCollection` returned
(index 0) still holds the original entries in their original order, the
final view is a different array, and it holds the homepage listing. -/
theorem pipeline_no_mutation (coll : List Entry) :
    readArr (homepagePipeline coll).1 0 = coll ∧
      (homepagePipeline coll).2 ≠ 0 ∧
      readArr (homepagePipeline coll).1 (homepagePipeline coll).2 =
        homepage coll := by
  refine ⟨rfl, ?_, rfl⟩
  simp [homepagePipeline, alloc, jsFilter, jsSortInPlace, jsSlice, writeArr]

/-- Instance of `pipeline_no_mutation` at a concrete collection. -/
theorem pipeline_no_mutation_witness :
    readArr (homepagePipeline [jsxPitfallEntry]).1 0 = [jsxPitfallEntry] ∧
      (homepagePipeline [jsxPitfallEntry]).2 ≠ 0 ∧
      readArr (homepagePipeline [jsxPitfallEntry]).1
          (homepagePipeline [jsxPitfallEntry]).2 =
        homepage [jsxPitfallEntry] :=
  pipeline_no_mutation [jsxPitfallEntry]

/-- C6: slug derivation precedence: an explicit `slug` field in the
metadata is used in preference to the filesystem-derived identifier, as it
is for the repository's one entry. -/
theorem resolveSlug_precedence (identifier s : String) :
    resolveSlug identifier (some s) = s ∧
      resolveSlug identifier none = identifier ∧
      resolveSlug jsxPitfallEntry.id jsxPitfallEntry.data.slug =
        "jsx-in-react-and-a-common-pitfall" :=
  ⟨rfl, rfl, rfl⟩

/-- Instance of `resolveSlug_precedence` at concrete strings. -/
theorem resolveSlug_precedence_witness :
    resolveSlug "some-file-id" (some "explicit-slug") = "explicit-slug" ∧
      resolveSlug "some-file-id" none = "some-file-id" ∧
      resolveSlug jsxPitfallEntry.id jsxPitfallEntry.data.slug =
        "jsx-in-react-and-a-common-pitfall" :=
  resolveSlug_precedence "some-file-id" "explicit-slug"

/-- C7: every sitemap URL is `siteOrigin ++ basePath ++ route.path` with
the configured origin and base path, and the sitemap has exactly one URL
per public (non-draft) route and none for draft-excluded entries. -/
theorem sitemap_urls (coll : List Entry) :
    siteOrigin = "https://gabrielmeloc22.github.io" ∧
      basePath = "blog" ∧
      emitSitemap (publicRoutes coll) =
        (coll.filter notDraft).map
          (fun e =>
            siteOrigin ++ basePath ++ ("/" ++ resolveSlug e.id e.data.slug)) ∧
      (emitSitemap (publicRoutes coll)).length =
        (coll.filter notDraft).length := by
  refine ⟨rfl, rfl, ?_, ?_⟩ <;> simp [emitSitemap, publicRoutes]

/-- Instance of `sitemap_urls` at a concrete collection. -/
theorem sitemap_urls_witness :
    siteOrigin = "https://gabrielmeloc22.github.io" ∧
      basePath = "blog" ∧
      emitSitemap (publicRoutes [jsxPitfallEntry]) =
        ([jsxPitfallEntry].filter notDraft).map
          (fun e =>
            siteOrigin ++ basePath ++ ("/" ++ resolveSlug e.id e.data.slug)) ∧
      (emitSitemap (publicRoutes [jsxPitfallEntry])).length =
        ([jsxPitfallEntry].filter notDraft).length :=
  sitemap_urls [jsxPitfallEntry]

/-- C8: the homepage pipeline is deterministic: two runs on collections
that are equal in content and order produce the same listing view. -/
theorem homepage_deterministic (c1 c2 : List Entry) (h : c1 = c2) :
    homepage c1 = homepage c2 :=
  congrArg homepage h

/-- Instance of `homepage_deterministic` at a concrete collection. -/
theorem homepage_deterministic_witness :
    homepage [jsxPitfallEntry] = homepage [jsxPitfallEntry] :=
  homepage_deterministic [jsxPitfallEntry] [jsxPitfallEntry] rfl

/-- C9: the `draft` field is optional with default `false`: an entry whose
metadata has no `draft` field passes the default filter and so stays
eligible for the homepage listing. -/
theorem draft_none_eligible (e : Entry) (coll : List Entry)
    (h : e.data.draft = none) :
    notDraft e = true ∧ (e ∈ coll → e ∈ coll.filter notDraft) := by
  have hn : notDraft e = true := by rw [notDraft, h]; rfl
  exact ⟨hn, fun hm => List.mem_filter.mpr ⟨hm, hn⟩⟩

/-- Instance of `draft_none_eligible` at the repository's entry, whose
frontmatter has no `draft` field. -/
theorem draft_none_eligible_witness :
    notDraft jsxPitfallEntry = true ∧
      (jsxPitfallEntry ∈ [jsxPitfallEntry] →
        jsxPitfallEntry ∈ [jsxPitfallEntry].filter notDraft) :=
  draft_none_eligible jsxPitfallEntry [jsxPitfallEntry] rfl

/-- C10: for a collection with distinct identifiers, the homepage listing
is a duplicate-free selection from the collection of length at most
`NUM_POSTS_ON_HOMEPAGE`. -/
theorem homepage_nodup_selection (coll : List Entry)
    (h : (coll.map Entry.id).Nodup) :
    (homepage coll).Nodup ∧ (∀ e ∈ homepage coll, e ∈ coll) ∧
      (homepage coll).length ≤ NUM_POSTS_ON_HOMEPAGE := by
  have hcoll : coll.Nodup := List.Nodup.of_map Entry.id h
  have hsort : (sortByDateDesc (coll.filter notDraft)).Nodup :=
    (perm_sortByDateDesc (coll.filter notDraft)).nodup_iff.mpr
      (hcoll.filter notDraft)
  refine ⟨?_, ?_, ?_⟩
  · exact hsort.sublist (List.take_sublist _ _)
  · intro e he
    simp only [homepage, sliceWindow] at he
    exact List.mem_of_mem_filter
      ((perm_sortByDateDesc _).mem_iff.mp (List.mem_of_mem_take he))
  · simp only [homepage, sliceWindow]
    exact List.length_take_le _ _

/-- Instance of `homepage_nodup_selection` at a concrete collection. -/
theorem homepage_nodup_selection_witness :
    (homepage [jsxPitfallEntry]).Nodup ∧
      (∀ e ∈ homepage [jsxPitfallEntry], e ∈ [jsxPitfallEntry]) ∧
      (homepage [jsxPitfallEntry]).length ≤ NUM_POSTS_ON_HOMEPAGE :=
  homepage_nodup_selection [jsxPitfallEntry] (by decide)

end Blog
